import Mathlib

/-!
Verification development for the container-planning table view
(`src/App.tsx` together with `src/services/supabase.ts`).

The client-side data synchronization and spreadsheet exchange layer is
shallowly embedded below: every React handler that mutates the table view
state becomes a pure function from the previous state (plus the inputs and
the outcome of the single remote call it performs) to the next state, the
list of record-store calls it issued, and the user-facing notifications it
produced.  JavaScript runtime values that can dynamically be either a string
or a number are modelled by the sum type `JsVal`; JS numbers are modelled as
exact rationals (the claims under study never depend on binary floating
point rounding).
-/

namespace Containers

/-! ## JavaScript primitive helpers -/

/-- A dynamically typed JavaScript primitive value as it occurs in the table
fields and spreadsheet cells: a (finite) number or a string. -/
inductive JsVal where
  | num (q : ℚ)
  | str (s : String)
  deriving DecidableEq, Repr

/-- JS truthiness for the values we model: `0` and `""` are falsy. -/
def JsVal.truthy : JsVal → Bool
  | .num q => q ≠ 0
  | .str s => s ≠ ""

/-- Truthiness of a possibly-`undefined` value (`none` = `undefined`). -/
def jsTruthyU : Option JsVal → Bool
  | none => false
  | some v => v.truthy

/-- JS `a || b` on possibly-undefined values. -/
def jsOrU (a b : Option JsVal) : Option JsVal :=
  if jsTruthyU a then a else b

/-- Whitespace as skipped by JS `parseFloat`/`parseInt` and trimmed by
`String.prototype.trim`. -/
def wsChar (c : Char) : Bool := c.isWhitespace

/-- `List Char` version of `String.prototype.trim`: drop leading and trailing
whitespace. -/
def trimL (l : List Char) : List Char :=
  ((l.dropWhile wsChar).reverse.dropWhile wsChar).reverse

/-- JS `String.prototype.trim`. -/
def jsTrim (s : String) : String := ⟨trimL s.data⟩

/-- `List Char` version of `String.prototype.split(',')`. -/
def splitComma : List Char → List (List Char)
  | [] => [[]]
  | c :: cs =>
    if c = ',' then [] :: splitComma cs
    else (splitComma cs).modifyHead (c :: ·)

/-- JS `String.prototype.split(',')`. -/
def jsSplitComma (s : String) : List String :=
  (splitComma s.data).map (⟨·⟩)

/-- `List Char` version of `Array.prototype.join(', ')`. -/
def joinCS : List (List Char) → List Char
  | [] => []
  | [a] => a
  | a :: b :: t => a ++ ',' :: ' ' :: joinCS (b :: t)

/-- JS `Array.prototype.join(', ')` on an array of strings. -/
def jsJoinCS (l : List String) : String := ⟨joinCS (l.map String.data)⟩

/-- Numeric value of a run of decimal digits. -/
def natOfDigits (l : List Char) : ℕ :=
  l.foldl (fun a c => 10 * a + (c.toNat - 48)) 0

/-- JS `parseFloat` on a string, modelled on the decimal fragment actually
exercised by the application (optional leading whitespace, optional sign,
integer digits, optional fraction digits; exponents and `Infinity` are not
modelled).  `none` stands for `NaN` (no digit found). -/
def jsParseFloat (s : String) : Option ℚ :=
  let l := s.data.dropWhile wsChar
  let sign : Bool × List Char :=
    match l with
    | '-' :: t => (true, t)
    | '+' :: t => (false, t)
    | _ => (false, l)
  let ip := sign.2.takeWhile Char.isDigit
  let rest := sign.2.dropWhile Char.isDigit
  let fp := match rest with
    | '.' :: t => t.takeWhile Char.isDigit
    | _ => []
  if ip = [] ∧ fp = [] then none
  else
    let v : ℚ := (natOfDigits ip : ℚ) + (natOfDigits fp : ℚ) / (10 ^ fp.length : ℚ)
    some (if sign.1 then -v else v)

/-- JS `parseInt` (radix 10) on a string: optional leading whitespace,
optional sign, leading run of decimal digits; `none` stands for `NaN`. -/
def jsParseInt (s : String) : Option ℚ :=
  let l := s.data.dropWhile wsChar
  let sign : Bool × List Char :=
    match l with
    | '-' :: t => (true, t)
    | '+' :: t => (false, t)
    | _ => (false, l)
  let ip := sign.2.takeWhile Char.isDigit
  if ip = [] then none
  else
    let v : ℚ := (natOfDigits ip : ℚ)
    some (if sign.1 then -v else v)

/-- Truncation toward zero, as performed by `parseInt(String(x))` on a finite
decimal number. -/
def truncQ (q : ℚ) : ℚ := ((Int.tdiv q.num q.den : ℤ) : ℚ)

/-- JS `x || 0` applied to a parse result (`NaN`, i.e. `none`, and `0` both
collapse to `0`). -/
def orZero : Option ℚ → ℚ
  | none => 0
  | some q => q

/-- `parseFloat` applied to a possibly-undefined cell value.  On a number the
JS builtin stringifies and re-parses, which is the identity on the finite
decimals we model; on `undefined` it yields `NaN`. -/
def parseFloatU : Option JsVal → Option ℚ
  | none => none
  | some (.num q) => some q
  | some (.str s) => jsParseFloat s

/-- `parseInt` applied to a possibly-undefined cell value (on a number:
stringify then parse, i.e. truncation toward zero). -/
def parseIntU : Option JsVal → Option ℚ
  | none => none
  | some (.num q) => some (truncQ q)
  | some (.str s) => jsParseInt s

/-! ## Data model (`ContainerItem` of `App.tsx`) -/

/-- A file-attachment field value at runtime: either a bare string (e.g. a
`blob:` object URL or a demo file path) or an object `{url, name}`. -/
inductive FileData where
  | strRef (s : String)
  | urlName (url name : String)
  deriving DecidableEq, Repr

/-- Truthiness of an optional attachment field (`undefined` and `""` are
falsy, any object is truthy). -/
def attTruthy : Option FileData → Bool
  | none => false
  | some (.strRef s) => s ≠ ""
  | some (.urlName _ _) => true

/-- The UI row shape (`interface ContainerItem` of `App.tsx`).  Fields that
the code only ever assigns numeric values are typed `ℚ`; fields that can
dynamically receive either a string or a number (raw spreadsheet cells flow
into them on import, and `saveEdit` stores the raw edit buffer into
`productionDays`) are typed `JsVal`. -/
structure ContainerItem where
  id : ℕ
  referenceCode : JsVal
  supplier : JsVal
  cbm : ℚ
  cartons : ℚ
  grossWeight : ℚ
  productCost : ℚ
  freightCost : ℚ
  status : JsVal
  awaiting : List String
  productionDays : JsVal
  productionReady : JsVal
  client : JsVal
  packingList : Option FileData
  commercialInvoice : Option FileData
  payment : Option FileData
  hbl : Option FileData
  certificates : Option FileData
  deriving DecidableEq, Repr

/-- The snake_case row shape sent to the record store on create
(`containerItemService.create` argument). -/
structure NewItemRow where
  container_name : String
  reference_code : JsVal
  supplier : JsVal
  cbm : ℚ
  cartons : ℚ
  gross_weight : ℚ
  product_cost : ℚ
  freight_cost : ℚ
  status : JsVal
  awaiting : List String
  production_days : ℚ
  production_ready : JsVal
  client : JsVal
  deriving DecidableEq, Repr

/-- The record store assigns an id on insert and echoes the inserted row
(`insert(...).select().single()`); newly created rows carry no attachments. -/
def serverCreatedItem (id : ℕ) (r : NewItemRow) : ContainerItem :=
  { id := id
    referenceCode := r.reference_code
    supplier := r.supplier
    cbm := r.cbm
    cartons := r.cartons
    grossWeight := r.gross_weight
    productCost := r.product_cost
    freightCost := r.freight_cost
    status := r.status
    awaiting := r.awaiting
    productionDays := .num r.production_days
    productionReady := r.production_ready
    client := r.client
    packingList := none
    commercialInvoice := none
    payment := none
    hbl := none
    certificates := none }

/-! ## Fields and field access -/

/-- The cells that `startEditing` can make the active cell (the eight
click-to-edit columns of the table). -/
inductive EditField where
  | referenceCode | supplier | cbm | cartons | grossWeight
  | productCost | freightCost | productionDays
  deriving DecidableEq, Repr

/-- The five attachment columns. -/
inductive AttField where
  | packingList | commercialInvoice | payment | hbl | certificates
  deriving DecidableEq, Repr

/-- Every field of a `ContainerItem`, for stating frame properties. -/
inductive Field where
  | id | referenceCode | supplier | cbm | cartons | grossWeight
  | productCost | freightCost | status | awaiting | productionDays
  | productionReady | client
  | packingList | commercialInvoice | payment | hbl | certificates
  deriving DecidableEq, Repr

/-- A field value, for uniform field access. -/
inductive FVal where
  | prim (v : JsVal)
  | tags (l : List String)
  | att (o : Option FileData)
  deriving DecidableEq, Repr

/-- Uniform field getter on a row. -/
def getF (it : ContainerItem) : Field → FVal
  | .id => .prim (.num it.id)
  | .referenceCode => .prim it.referenceCode
  | .supplier => .prim it.supplier
  | .cbm => .prim (.num it.cbm)
  | .cartons => .prim (.num it.cartons)
  | .grossWeight => .prim (.num it.grossWeight)
  | .productCost => .prim (.num it.productCost)
  | .freightCost => .prim (.num it.freightCost)
  | .status => .prim it.status
  | .awaiting => .tags it.awaiting
  | .productionDays => .prim it.productionDays
  | .productionReady => .prim it.productionReady
  | .client => .prim it.client
  | .packingList => .att it.packingList
  | .commercialInvoice => .att it.commercialInvoice
  | .payment => .att it.payment
  | .hbl => .att it.hbl
  | .certificates => .att it.certificates

/-- The `Field` named by an `EditField`. -/
def EditField.toField : EditField → Field
  | .referenceCode => .referenceCode
  | .supplier => .supplier
  | .cbm => .cbm
  | .cartons => .cartons
  | .grossWeight => .grossWeight
  | .productCost => .productCost
  | .freightCost => .freightCost
  | .productionDays => .productionDays

/-- The five numerically coerced edit fields
(`['cbm', 'cartons', 'grossWeight', 'productCost', 'freightCost']`
in `saveEdit`). -/
def isNumericEditField : EditField → Bool
  | .cbm | .cartons | .grossWeight | .productCost | .freightCost => true
  | _ => false

/-- `saveEdit`'s `fieldMap` (camelCase to snake_case, identity fallback),
restricted to the fields that can actually be the active cell. -/
def supabaseFieldOf : EditField → String
  | .referenceCode => "reference_code"
  | .supplier => "supplier"
  | .cbm => "cbm"
  | .cartons => "cartons"
  | .grossWeight => "gross_weight"
  | .productCost => "product_cost"
  | .freightCost => "freight_cost"
  | .productionDays => "production_days"

/-- The `supabaseFieldMap` used by `handleFileUpload` / `deleteAttachment`. -/
def attColumn : AttField → String
  | .packingList => "packing_list"
  | .commercialInvoice => "commercial_invoice"
  | .payment => "payment"
  | .hbl => "hbl"
  | .certificates => "certificates"

/-- Attachment field getter. -/
def getAtt (it : ContainerItem) : AttField → Option FileData
  | .packingList => it.packingList
  | .commercialInvoice => it.commercialInvoice
  | .payment => it.payment
  | .hbl => it.hbl
  | .certificates => it.certificates

/-- Attachment field setter (`{...item, [field]: v}`). -/
def setAtt (it : ContainerItem) (f : AttField) (v : Option FileData) : ContainerItem :=
  match f with
  | .packingList => { it with packingList := v }
  | .commercialInvoice => { it with commercialInvoice := v }
  | .payment => { it with payment := v }
  | .hbl => { it with hbl := v }
  | .certificates => { it with certificates := v }

/-! ## Store calls and notifications -/

/-- A value carried inside a patch update. -/
inductive PatchVal where
  | v (x : JsVal)
  | nullVal
  | fileMeta (name mime : String) (size : ℚ) (dataUrl : String)
  deriving DecidableEq, Repr

/-- A network call issued to the record store client
(`containerItemService`). -/
inductive StoreCall where
  | createIt (row : NewItemRow)
  | updateIt (id : ℕ) (patch : List (String × PatchVal))
  | deleteIt (id : ℕ)
  deriving DecidableEq, Repr

/-- A user-facing notification: the transient save notification
(`setShowSaveNotification(true)`) or a blocking `alert(msg)`. -/
inductive Notice where
  | saved
  | alert (msg : String)
  deriving DecidableEq, Repr

/-- Whether a notice is an `alert`. -/
def Notice.isAlert : Notice → Bool
  | .saved => false
  | .alert _ => true

/-- The view state owned by the component: the row list, the active cell and
its pending text buffer. -/
structure TableState where
  containerData : List ContainerItem
  editingCell : Option (ℕ × EditField)
  editValue : String
  deriving DecidableEq, Repr

/-- Result of running one handler: next state, store calls issued (in order),
notifications produced. -/
abbrev HandlerOut := TableState × List StoreCall × List Notice

/-! ## Mutating handlers of `App.tsx` -/

/-- The all-default row inserted by `addNewRow`. -/
def defaultNewRow (selectedContainer : String) : NewItemRow :=
  { container_name := selectedContainer
    reference_code := .str ""
    supplier := .str ""
    cbm := 0
    cartons := 0
    gross_weight := 0
    product_cost := 0
    freight_cost := 0
    status := .str "Pending"
    awaiting := ["-"]
    production_days := 0
    production_ready := .str ""
    client := .str "" }

/-- `addNewRow` (App.tsx:203).  `remoteOk` is the outcome of the single
`containerItemService.create` call; `newId` the id the store assigns. -/
def addNewRow (isReadOnly remoteOk : Bool) (selectedContainer : String)
    (newId : ℕ) (st : TableState) : HandlerOut :=
  if isReadOnly then
    (st, [], [.alert "Read-only mode: Changes are not allowed on this deployment."])
  else
    let row := defaultNewRow selectedContainer
    if remoteOk then
      ({ st with containerData := st.containerData ++ [serverCreatedItem newId row] },
        [.createIt row], [.saved])
    else
      (st, [.createIt row], [.alert "Failed to add new row. Please try again."])

/-- The type-coerced value `saveEdit` commits
(`value = parseFloat(editValue) || 0` on the five numeric fields, the raw
edit buffer otherwise). -/
def commitValue (f : EditField) (editValue : String) : JsVal :=
  if isNumericEditField f then .num (orZero (jsParseFloat editValue))
  else .str editValue

/-- `{...itemToUpdate, [field]: value}` in `saveEdit`. -/
def applyEdit (it : ContainerItem) (f : EditField) (editValue : String) : ContainerItem :=
  match f with
  | .cbm => { it with cbm := orZero (jsParseFloat editValue) }
  | .cartons => { it with cartons := orZero (jsParseFloat editValue) }
  | .grossWeight => { it with grossWeight := orZero (jsParseFloat editValue) }
  | .productCost => { it with productCost := orZero (jsParseFloat editValue) }
  | .freightCost => { it with freightCost := orZero (jsParseFloat editValue) }
  | .referenceCode => { it with referenceCode := .str editValue }
  | .supplier => { it with supplier := .str editValue }
  | .productionDays => { it with productionDays := .str editValue }

/-- `saveEdit` (App.tsx:285).  Commits the pending edit buffer: one patch
update of exactly the active field, then on success the list entry is
replaced in place. -/
def saveEdit (isReadOnly remoteOk : Bool) (st : TableState) : HandlerOut :=
  match st.editingCell with
  | none => (st, [], [])
  | some (id, f) =>
    if isReadOnly then
      ({ st with editingCell := none, editValue := "" }, [],
        [.alert "Read-only mode: Changes are not allowed on this deployment."])
    else
      match st.containerData.find? (fun it => it.id == id) with
      | none => (st, [], [])
      | some it =>
        let value := commitValue f st.editValue
        let patch := [(supabaseFieldOf f, PatchVal.v value)]
        let updated := applyEdit it f st.editValue
        if remoteOk then
          ({ containerData :=
              st.containerData.map (fun x => if x.id == id then updated else x)
             editingCell := none
             editValue := "" },
            [.updateIt it.id patch], [.saved])
        else
          ({ st with editingCell := none, editValue := "" },
            [.updateIt it.id patch],
            [.alert "Failed to save changes. Please try again."])

/-- `updateStatus` (App.tsx:343): patch update of the `status` field, applied
locally only on success. -/
def updateStatus (isReadOnly remoteOk : Bool) (id : ℕ) (s : String)
    (st : TableState) : HandlerOut :=
  if isReadOnly then
    (st, [], [.alert "Read-only mode: Changes are not allowed on this deployment."])
  else
    if remoteOk then
      ({ st with containerData :=
          st.containerData.map (fun it => if it.id == id then { it with status := .str s } else it) },
        [.updateIt id [("status", .v (.str s))]], [.saved])
    else
      (st, [.updateIt id [("status", .v (.str s))]],
        [.alert "Failed to update status. Please try again."])

/-- `deleteRow` (App.tsx:442).  `confirmed` is the result of the
`window.confirm` prompt naming the item. -/
def deleteRow (isReadOnly confirmed remoteOk : Bool) (id : ℕ)
    (st : TableState) : HandlerOut :=
  if isReadOnly then
    (st, [], [.alert "Read-only mode: Cannot delete items"])
  else if confirmed then
    if remoteOk then
      ({ st with containerData := st.containerData.filter (fun it => ¬ it.id == id) },
        [.deleteIt id], [.saved])
    else
      (st, [.deleteIt id], [.alert "Failed to delete item. Please try again."])
  else
    (st, [], [])

/-- `deleteAttachment` (App.tsx:465): sets the remote column to `null` and,
on success, the local field to absent. -/
def deleteAttachment (isReadOnly confirmed remoteOk : Bool) (id : ℕ)
    (f : AttField) (st : TableState) : HandlerOut :=
  if isReadOnly then
    (st, [], [.alert "Read-only mode: Cannot delete attachments"])
  else if confirmed then
    if remoteOk then
      ({ st with containerData :=
          st.containerData.map (fun it => if it.id == id then setAtt it f none else it) },
        [.updateIt id [(attColumn f, .nullVal)]], [.saved])
    else
      (st, [.updateIt id [(attColumn f, .nullVal)]],
        [.alert "Failed to delete attachment. Please try again."])
  else
    (st, [], [])

/-- A locally selected file: its metadata, the object URL produced for
preview, and the data URL the `FileReader` encodes it to. -/
structure UploadFile where
  name : String
  mime : String
  size : ℚ
  objectUrl : String
  dataUrl : String
  deriving DecidableEq, Repr

/-- `handleFileUpload` (App.tsx:365).  The one optimistic operation: the
local preview is applied before the persist call; a rejection of the persist
call inside the `FileReader` callback is not caught (no alert, preview kept). -/
def handleFileUpload (isReadOnly : Bool) (id : ℕ) (f : AttField)
    (file : Option UploadFile) (remoteOk : Bool) (st : TableState) : HandlerOut :=
  if isReadOnly then
    (st, [], [.alert "Read-only mode: Cannot upload files"])
  else
    match file with
    | none => (st, [], [])
    | some fl =>
      let fileData : FileData := .urlName fl.objectUrl fl.name
      let previewState :=
        { st with containerData :=
            st.containerData.map (fun it => if it.id == id then setAtt it f (some fileData) else it) }
      let call := StoreCall.updateIt id
        [(attColumn f, .fileMeta fl.name fl.mime fl.size fl.dataUrl)]
      if remoteOk then (previewState, [call], [.saved])
      else (previewState, [call], [])

/-- The `onChange` handler of the Awaiting `<select>` (App.tsx:1229): it
rewrites the local row only — no store call is issued and the read-only flag
is not consulted. -/
def awaitingOnChange (id : ℕ) (v : String) (st : TableState) : HandlerOut :=
  let newAwaiting := if v = "-" then ["-"] else [v]
  ({ st with containerData :=
      st.containerData.map (fun it => if it.id == id then { it with awaiting := newAwaiting } else it) },
    [], [])

/-- The `onChange` handler of the Production Ready date input
(App.tsx:1269): local rewrite only. -/
def productionReadyOnChange (id : ℕ) (v : String) (st : TableState) : HandlerOut :=
  ({ st with containerData :=
      st.containerData.map (fun it => if it.id == id then { it with productionReady := .str v } else it) },
    [], [])

/-- The `onChange` handler of the Client `<select>` (App.tsx:1292): local
rewrite only. -/
def clientOnChange (id : ℕ) (v : String) (st : TableState) : HandlerOut :=
  ({ st with containerData :=
      st.containerData.map (fun it => if it.id == id then { it with client := .str v } else it) },
    [], [])

/-! ## Spreadsheet exchange: export grid -/

/-- A worksheet cell: an optional stored value `v` and an optional formula
`f` (styling is not modelled — the claims under study do not depend on it). -/
structure Cell where
  v : Option JsVal
  f : Option String
  deriving DecidableEq, Repr

/-- A worksheet: rows of optional cells, row 0 being the header row written
by `json_to_sheet`. -/
abbrev Sheet := List (List (Option Cell))

/-- A plain value cell. -/
def vcell (v : JsVal) : Option Cell := some { v := some v, f := none }

/-- A string label cell. -/
def scell (s : String) : Option Cell := vcell (.str s)

/-- A live-formula cell: carries a formula and no precomputed value
(the summary cells of `exportToExcel` set `f` and no `v`). -/
def fcell (f : String) : Option Cell := some { v := none, f := some f }

/-- `XLSX.utils.encode_col` (bijective base-26 column letters), with the
column count itself as recursion fuel. -/
def encodeColCore : Nat → Nat → List Char
  | _, 0 => []
  | 0, _ => []
  | fuel + 1, n + 1 => encodeColCore fuel ((n + 1 - 1) / 26) ++ [Char.ofNat (65 + (n + 1 - 1) % 26)]

/-- `XLSX.utils.encode_col`. -/
def encodeCol (c : Nat) : String := ⟨encodeColCore (c + 1) (c + 1)⟩

/-- The header keys of `exportData` (App.tsx:510), in order. -/
def exportHeaders : List String :=
  ["Reference Code", "Supplier", "CBM", "Cartons", "Gross Weight",
   "Product Cost", "Freight Cost", "Awaiting", "Production Days",
   "Production Ready", "Status", "Client"]

/-- The cell values of one exported data row, in header order. -/
def exportRowCells (it : ContainerItem) : List JsVal :=
  [it.referenceCode, it.supplier, .num it.cbm, .num it.cartons,
   .num it.grossWeight, .num it.productCost, .num it.freightCost,
   .str (jsJoinCS it.awaiting), it.productionDays, it.productionReady,
   it.status, it.client]

/-- `SUM(<col>2:<col><dataEndRow+1>)` as built for the Total CBM cell
(and reused twice inside the Total Cost cell). -/
def sumFormula (col dataEndRow : Nat) : String :=
  "SUM(" ++ encodeCol col ++ "2:" ++ encodeCol col ++ toString (dataEndRow + 1) ++ ")"

/-- The Total Cost formula: sum of the product-cost column (5) plus sum of
the freight-cost column (5 + 1). -/
def costFormula (dataEndRow : Nat) : String :=
  sumFormula 5 dataEndRow ++ " + " ++ sumFormula (5 + 1) dataEndRow

/-- The CBM Ready to Ship formula: `SUMIF` over the status column (10)
against the literal string, summing the CBM column (2). -/
def readyFormula (dataEndRow : Nat) : String :=
  "SUMIF(" ++ encodeCol 10 ++ "2:" ++ encodeCol 10 ++ toString (dataEndRow + 1) ++
    ",\"Ready to Ship\"," ++ encodeCol 2 ++ "2:" ++ encodeCol 2 ++ toString (dataEndRow + 1) ++ ")"

/-- The worksheet written by `exportToExcel`: the `json_to_sheet` block
(header row and one row per item; `json_to_sheet([])` yields an empty
sheet, hence no header cells for an empty table), two blank separator rows,
then the three-row summary block of label cells and live-formula cells
(`summaryStartRow = dataEndRow + 3`). -/
def exportSheet (data : List ContainerItem) : Sheet :=
  (if data = [] then [] else exportHeaders.map scell) ::
    data.map (fun it => (exportRowCells it).map vcell) ++
    [[], []] ++
    [[scell "Total CBM:", fcell (sumFormula 2 data.length)],
     [scell "Total Cost:", fcell (costFormula data.length)],
     [scell "CBM Ready to Ship:", fcell (readyFormula data.length)]]

/-! ## Spreadsheet exchange: import -/

/-- The header key a header-row cell contributes (string-valued cells; the
exported header row only holds string labels). -/
def headerName (c : Option Cell) : Option String :=
  match c with
  | some cell =>
    match cell.v with
    | some (.str s) => some s
    | _ => none
  | none => none

/-- The object built from one sheet row: a key is present exactly when the
corresponding cell has a stored value. -/
def rowObject (headers : List (Option String)) (r : List (Option Cell)) :
    List (String × JsVal) :=
  (headers.zip r).filterMap (fun hc =>
    match hc with
    | (some h, some cell) => (cell.v).map (fun v => (h, v))
    | _ => none)

/-- One sheet row as `sheet_to_json` sees it: a row without a single valued
cell is a blank row and is skipped (`none`), any other row becomes its
object. -/
def jsonRowOf (headers : List (Option String)) (r : List (Option Cell)) :
    Option (List (String × JsVal)) :=
  let pairs := rowObject headers r
  if pairs = [] then none else some pairs

/-- `XLSX.utils.sheet_to_json` with default options, as used by
`importFromExcel`: row 0 supplies the header keys, every following row with
at least one valued cell becomes one object (blank rows are skipped). -/
def sheetToJson (sheet : Sheet) : List (List (String × JsVal)) :=
  match sheet with
  | [] => []
  | headerRow :: dataRows =>
    dataRows.filterMap (jsonRowOf (headerRow.map headerName))

/-- `row['Key']` on a parsed row object. -/
def jsGet (row : List (String × JsVal)) (k : String) : Option JsVal :=
  List.lookup k row

/-- Reading a JS value as a string (the `as string` cast in
`importFromExcel`; a numeric cell would be stringified by the runtime before
`.split` could apply only via coercion — the theorems below only exercise
string-valued cells). -/
def asStringCast : JsVal → String
  | .str s => s
  | .num q => toString q

/-- The per-row conversion of `importFromExcel` (App.tsx:841):
alias fallback for the reference code, `|| ''` defaults for the plain text
columns, `parseFloat`/`parseInt` with `|| 0` for the numeric columns,
`row['Status'] || 'Pending'`, and the Awaiting column split on commas with
trimming, defaulting to the `['-']` sentinel. -/
def importRow (selectedContainer : String) (row : List (String × JsVal)) : NewItemRow :=
  { container_name := selectedContainer
    reference_code :=
      (jsOrU (jsOrU (jsGet row "Reference Code") (jsGet row "Ref")) (some (.str ""))).getD (.str "")
    supplier := (jsOrU (jsGet row "Supplier") (some (.str ""))).getD (.str "")
    cbm := orZero (parseFloatU (jsGet row "CBM"))
    cartons := orZero (parseIntU (jsGet row "Cartons"))
    gross_weight := orZero (parseFloatU (jsGet row "Gross Weight"))
    product_cost := orZero (parseFloatU (jsGet row "Product Cost"))
    freight_cost := orZero (parseFloatU (jsGet row "Freight Cost"))
    status := (jsOrU (jsGet row "Status") (some (.str "Pending"))).getD (.str "Pending")
    awaiting :=
      match jsGet row "Awaiting" with
      | some v =>
        if v.truthy then (jsSplitComma (asStringCast v)).map jsTrim else ["-"]
      | none => ["-"]
    production_days := orZero (parseIntU (jsGet row "Production Days"))
    production_ready := (jsOrU (jsGet row "Production Ready") (some (.str ""))).getD (.str "")
    client := (jsOrU (jsGet row "Client") (some (.str ""))).getD (.str "") }

/-- Import mode of the import modal. -/
inductive ImportMode where
  | replace
  | add
  deriving DecidableEq, Repr

/-- The sequential create loop: one create call per row, the store assigning
consecutive ids starting at `firstId` and echoing each inserted row. -/
def createAll : ℕ → List NewItemRow → List ContainerItem
  | _, [] => []
  | k, r :: rs => serverCreatedItem k r :: createAll (k + 1) rs

/-- `importFromExcel` (App.tsx:814).  The read-only flag is checked before
the file is even touched.  `remoteOk = true` models the run in which every
delete/create call succeeds (`remoteOk = false`: the first call rejects, the
`catch` alerts and local state is untouched; a mid-loop failure, which
leaves the store partially imported, is outside the claims modelled here). -/
def importFromExcel (isReadOnly : Bool) (importMode : ImportMode)
    (selectedContainer : String) (file : Option Sheet) (firstId : ℕ)
    (remoteOk : Bool) (st : TableState) : HandlerOut :=
  if isReadOnly then
    (st, [], [.alert "Read-only mode: Cannot import data"])
  else
    match file with
    | none => (st, [], [])
    | some sheet =>
      let jsonData := sheetToJson sheet
      let deletes : List StoreCall :=
        if importMode = .replace then st.containerData.map (fun it => .deleteIt it.id) else []
      let rows := jsonData.map (importRow selectedContainer)
      let calls := deletes ++ rows.map .createIt
      if remoteOk then
        let createdItems := createAll firstId rows
        let newData :=
          if importMode = .replace then createdItems else st.containerData ++ createdItems
        ({ st with containerData := newData }, calls, [.saved])
      else
        (st, calls.take 1, [.alert "Failed to import data. Please try again."])

/-! ## Export: attachment bundling and download artifact -/

/-- `getFileExtension` (App.tsx:799): MIME type to file extension, `bin`
fallback. -/
def getFileExtension (mimeType : String) : String :=
  (List.lookup mimeType
    [("application/pdf", "pdf"),
     ("application/vnd.openxmlformats-officedocument.spreadsheetml.sheet", "xlsx"),
     ("application/vnd.ms-excel", "xls"),
     ("application/vnd.openxmlformats-officedocument.wordprocessingml.document", "docx"),
     ("application/msword", "doc"),
     ("image/jpeg", "jpg"),
     ("image/png", "png"),
     ("image/gif", "gif")]).getD "bin"

/-- `referenceCode.replace(/[^a-zA-Z0-9]/g, '_')`. -/
def sanitizeFolderName (s : String) : String :=
  ⟨s.data.map (fun c => if c.isAlphanum then c else '_')⟩

/-- The network environment for attachment fetches: a URL resolves to the
blob bytes and its MIME type, or the fetch rejects (`none`). -/
abbrev FetchEnv := String → Option (List ℕ × String)

/-- Display name of an item's attachment as read from a `JsVal` reference
code (`if (item.referenceCode)` guards the folder creation, so only truthy
codes reach `sanitizeFolderName`; the theorems restrict to string values,
matching the `.replace` string method of the source). -/
def refCodeString : JsVal → String
  | .str s => s
  | .num q => toString q

/-- JS `String.prototype.startsWith`. -/
def jsStartsWith (s pfx : String) : Bool := pfx.data.isPrefixOf s.data

/-- Fetch-and-name one attachment for the zip, following the three branches
of the export loop: a `blob:` string URL is fetched and named from its MIME
type; any other bare string (demo file path) gets empty content and is
therefore never added; a `{url, name}` object is fetched and keeps its name
when non-empty.  A rejected fetch yields `none` (`continue`). -/
def fetchAttachment (env : FetchEnv) (attName : String) (fd : FileData) :
    Option (String × List ℕ) :=
  match fd with
  | .strRef s =>
    if jsStartsWith s "blob:" then
      match env s with
      | some (bytes, mime) => some (attName ++ "." ++ getFileExtension mime, bytes)
      | none => none
    else none
  | .urlName url name =>
    match env url with
    | some (bytes, mime) =>
      some ((if name ≠ "" then name else attName ++ "." ++ getFileExtension mime), bytes)
    | none => none

/-- The ordered attachment list of the export loop (field, base name). -/
def attachmentSpecs : List (AttField × String) :=
  [(.packingList, "Packing_List"), (.commercialInvoice, "Commercial_Invoice"),
   (.payment, "Payment"), (.hbl, "HBL"), (.certificates, "Certificates")]

/-- One zip folder: its (sanitized) name and its files. -/
structure ZipFolder where
  name : String
  files : List (String × List ℕ)
  deriving DecidableEq, Repr

/-- The files placed into one item's folder: each of the five attachment
slots that is truthy and whose fetch succeeds, in slot order. -/
def folderFiles (env : FetchEnv) (it : ContainerItem) : List (String × List ℕ) :=
  attachmentSpecs.filterMap (fun spec =>
    match getAtt it spec.1 with
    | some fd => if attTruthy (some fd) then fetchAttachment env spec.2 fd else none
    | none => none)

/-- `if (item.packingList || item.commercialInvoice || ...)` over the rows. -/
def hasAttachments (data : List ContainerItem) : Bool :=
  data.any (fun it =>
    attTruthy it.packingList || attTruthy it.commercialInvoice ||
    attTruthy it.payment || attTruthy it.hbl || attTruthy it.certificates)

/-- The artifact `exportToExcel` hands to the browser download: either the
plain workbook, or a zip holding the workbook plus one folder per
reference-code-bearing row. -/
inductive ExportOut where
  | plain (fileName : String) (workbook : Sheet)
  | zipped (fileName : String) (workbookFileName : String) (workbook : Sheet)
      (folders : List ZipFolder)
  deriving DecidableEq, Repr

/-- `exportToExcel` (App.tsx:509): build the styled worksheet, then either
download the plain `.xlsx` (no row has any attachment) or assemble the zip
(workbook file plus, for every row with a truthy reference code, a folder of
that row's successfully fetched attachments). -/
def exportToExcel (env : FetchEnv) (selectedContainer : String)
    (data : List ContainerItem) : ExportOut :=
  let workbook := exportSheet data
  if hasAttachments data then
    .zipped (selectedContainer ++ " CBM & PI.zip")
      (selectedContainer ++ " CBM & PI.xlsx") workbook
      ((data.filter (fun it => it.referenceCode.truthy)).map (fun it =>
        { name := sanitizeFolderName (refCodeString it.referenceCode)
          files := folderFiles env it }))
  else
    .plain (selectedContainer ++ " CBM & PI.xlsx") workbook

/-- The export button handler as it sits in the component: it consults
neither the read-only flag nor the store client, and leaves the view state
untouched — its only effects are reads, attachment fetches and the browser
download. -/
def exportHandler (isReadOnly : Bool) (env : FetchEnv) (selectedContainer : String)
    (st : TableState) : TableState × List StoreCall × ExportOut :=
  (st, [], exportToExcel env selectedContainer st.containerData)

/-! ## Round-trip bookkeeping -/

/-- The object `sheet_to_json` produces for one exported data row: every
cell of `exportRowCells` is valued, so every header key is present. -/
def rowAssoc (it : ContainerItem) : List (String × JsVal) :=
  [("Reference Code", it.referenceCode), ("Supplier", it.supplier),
   ("CBM", .num it.cbm), ("Cartons", .num it.cartons),
   ("Gross Weight", .num it.grossWeight), ("Product Cost", .num it.productCost),
   ("Freight Cost", .num it.freightCost), ("Awaiting", .str (jsJoinCS it.awaiting)),
   ("Production Days", it.productionDays), ("Production Ready", it.productionReady),
   ("Status", it.status), ("Client", it.client)]

/-- The visible columns of a row singled out by the round-trip property:
reference code, supplier, cbm, cartons, gross weight, product cost, freight
cost, status, client, and the awaiting tags joined as one comma-separated
string. -/
structure VisCols where
  referenceCode : JsVal
  supplier : JsVal
  cbm : ℚ
  cartons : ℚ
  grossWeight : ℚ
  productCost : ℚ
  freightCost : ℚ
  status : JsVal
  client : JsVal
  awaitingJoined : String
  deriving DecidableEq, Repr

/-- Visible columns of a view-state row. -/
def visCols (it : ContainerItem) : VisCols :=
  ⟨it.referenceCode, it.supplier, it.cbm, it.cartons, it.grossWeight,
   it.productCost, it.freightCost, it.status, it.client, jsJoinCS it.awaiting⟩

/-- Visible columns of a row as sent to the store on create. -/
def visColsRow (r : NewItemRow) : VisCols :=
  ⟨r.reference_code, r.supplier, r.cbm, r.cartons, r.gross_weight,
   r.product_cost, r.freight_cost, r.status, r.client, jsJoinCS r.awaiting⟩

/-- Whether a dynamic value is a string. -/
def isStrVal : JsVal → Bool
  | .str _ => true
  | .num _ => false

/-- A row whose visible columns survive the export/import round trip
unchanged: its text columns hold strings, its status is a non-empty string,
its cartons count is integral (import re-parses it with `parseInt`), and its
awaiting tags are trimmed, comma-free, and join to a non-empty string. -/
def ExportClean (it : ContainerItem) : Bool :=
  isStrVal it.referenceCode && isStrVal it.supplier && isStrVal it.client &&
  (match it.status with
   | .str s => decide (s ≠ "")
   | .num _ => false) &&
  decide (it.cartons.den = 1) &&
  decide (jsJoinCS it.awaiting ≠ "") &&
  it.awaiting.all (fun t => decide (',' ∉ t.data) && decide (jsTrim t = t))

/-- The visible columns of the row that re-importing a summary-block label
line produces: the label lands under the Reference Code header and every
other column takes its import default. -/
def summaryVis (label : String) : VisCols :=
  ⟨.str label, .str "", 0, 0, 0, 0, 0, .str "Pending", .str "", "-"⟩

/-! ## Concrete sample inputs (used by witnesses and counterexamples) -/

/-- A representative row with integral numeric values. -/
def sampleItem : ContainerItem :=
  { id := 1, referenceCode := .str "A-1", supplier := .str "Acme", cbm := 2, cartons := 3,
    grossWeight := 40, productCost := 500, freightCost := 60, status := .str "Pending",
    awaiting := ["-"], productionDays := .num 0, productionReady := .str "",
    client := .str "", packingList := none, commercialInvoice := none, payment := none,
    hbl := none, certificates := none }

/-- A one-row table with an active edit of the cbm cell whose pending buffer
holds unparseable text. -/
def sampleState : TableState := ⟨[sampleItem], some (1, .cbm), "abc"⟩

/-- A fetch environment in which exactly one URL resolves. -/
def sampleEnv : FetchEnv := fun url =>
  if url = "blob:ok" then some ([1, 2, 3], "application/pdf") else none

/-- A row carrying one fetchable attachment and two whose fetches reject
under `sampleEnv`. -/
def attachedItem : ContainerItem :=
  { sampleItem with
    id := 2,
    referenceCode := .str "B/2",
    packingList := some (.strRef "blob:ok"),
    commercialInvoice := some (.urlName "https:inv" "inv.pdf"),
    payment := some (.urlName "https:gone" "") }

/-! ## Supporting lemmas -/

theorem filterMap_some_eq_map (g : α → β) (l : List α) :
    l.filterMap (fun a => some (g a)) = l.map g := by
  induction l with
  | nil => rfl
  | cons a t ih => simp [List.filterMap_cons, ih]

theorem sheetToJson_cons (hdr : List (Option Cell)) (rows : List (List (Option Cell))) :
    sheetToJson (hdr :: rows) = rows.filterMap (jsonRowOf (hdr.map headerName)) := rfl

theorem jsonRowOf_exportRow (it : ContainerItem) :
    jsonRowOf ((exportHeaders.map scell).map headerName) ((exportRowCells it).map vcell)
      = some (rowAssoc it) := rfl

/-- Parsing the exported worksheet back with `sheet_to_json` yields one
object per data row plus the three summary-label rows (the two blank
separator rows are skipped, and the formula cells carry no stored value, so
each summary row contributes only its label under the first header). -/
theorem sheetToJson_exportSheet (data : List ContainerItem) (h : data ≠ []) :
    sheetToJson (exportSheet data) =
      data.map rowAssoc ++
        [[("Reference Code", .str "Total CBM:")],
         [("Reference Code", .str "Total Cost:")],
         [("Reference Code", .str "CBM Ready to Ship:")]] := by
  unfold exportSheet
  rw [if_neg h]
  rw [List.cons_append, List.cons_append, sheetToJson_cons, List.filterMap_append,
    List.filterMap_append]
  have h1 : List.filterMap (jsonRowOf ((exportHeaders.map scell).map headerName))
      (data.map (fun it => (exportRowCells it).map vcell)) = data.map rowAssoc := by
    rw [List.filterMap_map]
    have h2 : (jsonRowOf ((exportHeaders.map scell).map headerName) ∘
        fun it => (exportRowCells it).map vcell) = fun it => some (rowAssoc it) := by
      funext it
      exact jsonRowOf_exportRow it
    rw [h2, filterMap_some_eq_map]
  rw [h1]
  rw [show List.filterMap (jsonRowOf ((exportHeaders.map scell).map headerName)) [[], []]
      = ([] : List (List (String × JsVal))) from rfl]
  rw [List.append_nil]
  rw [show List.filterMap (jsonRowOf ((exportHeaders.map scell).map headerName))
      [[scell "Total CBM:", fcell (sumFormula 2 data.length)],
       [scell "Total Cost:", fcell (costFormula data.length)],
       [scell "CBM Ready to Ship:", fcell (readyFormula data.length)]]
      = [[("Reference Code", JsVal.str "Total CBM:")],
         [("Reference Code", JsVal.str "Total Cost:")],
         [("Reference Code", JsVal.str "CBM Ready to Ship:")]] from rfl]

theorem createAll_map_visCols (k : ℕ) (rows : List NewItemRow) :
    (createAll k rows).map visCols = rows.map visColsRow := by
  induction rows generalizing k with
  | nil => rfl
  | cons r rs ih => simp [createAll, ih, visCols, visColsRow, serverCreatedItem]

theorem modifyHead_modifyHead (l : List α) (f g : α → α) :
    (l.modifyHead f).modifyHead g = l.modifyHead (fun a => g (f a)) := by
  cases l <;> simp [List.modifyHead]

theorem splitComma_append (xs ys : List Char) (h : ∀ c ∈ xs, c ≠ ',') :
    splitComma (xs ++ ys) = (splitComma ys).modifyHead (xs ++ ·) := by
  induction xs with
  | nil =>
    simp only [List.nil_append]
    cases splitComma ys <;> simp [List.modifyHead]
  | cons c cs ih =>
    have hc : c ≠ ',' := h c (by simp)
    have h2 : ∀ x ∈ cs, x ≠ ',' := fun x hx => h x (by simp [hx])
    calc splitComma ((c :: cs) ++ ys)
        = (splitComma (cs ++ ys)).modifyHead (c :: ·) := by
          simp [splitComma, hc]
      _ = ((splitComma ys).modifyHead (cs ++ ·)).modifyHead (c :: ·) := by rw [ih h2]
      _ = (splitComma ys).modifyHead ((c :: cs) ++ ·) := by
          rw [modifyHead_modifyHead]
          rfl

theorem splitComma_single (a : List Char) (h : ∀ c ∈ a, c ≠ ',') :
    splitComma a = [a] := by
  have := splitComma_append a [] h
  simpa [splitComma, List.modifyHead] using this

theorem splitComma_joinCS (a : List Char) (rest : List (List Char))
    (ha : ∀ c ∈ a, c ≠ ',') (hrest : ∀ t ∈ rest, ∀ c ∈ t, c ≠ ',') :
    splitComma (joinCS (a :: rest)) = a :: rest.map (' ' :: ·) := by
  induction rest generalizing a with
  | nil => simpa [joinCS] using splitComma_single a ha
  | cons b ts ih =>
    have hb : ∀ c ∈ b, c ≠ ',' := hrest b (by simp)
    have hts : ∀ t ∈ ts, ∀ c ∈ t, c ≠ ',' := fun t ht => hrest t (by simp [ht])
    calc splitComma (joinCS (a :: b :: ts))
        = splitComma (a ++ ',' :: ' ' :: joinCS (b :: ts)) := by rfl
      _ = (splitComma (',' :: ' ' :: joinCS (b :: ts))).modifyHead (a ++ ·) :=
          splitComma_append _ _ ha
      _ = ([] :: splitComma (' ' :: joinCS (b :: ts))).modifyHead (a ++ ·) := by
          simp [splitComma]
      _ = a :: splitComma (' ' :: joinCS (b :: ts)) := by
          simp [List.modifyHead]
      _ = a :: (splitComma (joinCS (b :: ts))).modifyHead (' ' :: ·) := by
          simp [splitComma]
      _ = a :: (b :: ts.map (' ' :: ·)).modifyHead (' ' :: ·) := by rw [ih b hb hts]
      _ = a :: (b :: ts).map (' ' :: ·) := by simp [List.modifyHead]

theorem trimL_cons_space (l : List Char) : trimL (' ' :: l) = trimL l := by
  simp [trimL, List.dropWhile, wsChar]

/-- Splitting the comma-join of non-empty, comma-free, trimmed tags on
commas and trimming each piece recovers the tags (the inverse direction of
the Awaiting column round trip). -/
theorem split_trim_join (tags : List String) (hne : tags ≠ [])
    (hc : ∀ t ∈ tags, ',' ∉ t.data) (ht : ∀ t ∈ tags, jsTrim t = t) :
    (jsSplitComma (jsJoinCS tags)).map jsTrim = tags := by
  cases tags with
  | nil => exact absurd rfl hne
  | cons a rest =>
    have key := splitComma_joinCS a.data (rest.map String.data)
      (fun c hcmem hceq => hc a (by simp) (hceq ▸ hcmem))
      (fun t htm c hcm hce => by
        obtain ⟨s, hs, rfl⟩ := List.mem_map.mp htm
        exact hc s (by simp [hs]) (hce ▸ hcm))
    show List.map jsTrim
        ((splitComma (joinCS (a.data :: rest.map String.data))).map
          (fun x => (⟨x⟩ : String))) = a :: rest
    rw [key]
    simp only [List.map_cons, List.map_map]
    congr 1
    · exact ht a (by simp)
    · have hrest : ∀ s ∈ rest, (jsTrim ∘ String.mk ∘ (' ' :: ·) ∘ String.data) s = id s := by
        intro s hs
        show jsTrim ⟨' ' :: s.data⟩ = s
        have h1 : jsTrim ⟨' ' :: s.data⟩ = ⟨trimL (' ' :: s.data)⟩ := rfl
        rw [h1, trimL_cons_space]
        exact ht s (by simp [hs])
      rw [List.map_congr_left hrest, List.map_id]

theorem truncQ_of_den_one (q : ℚ) (h : q.den = 1) : truncQ q = q := by
  unfold truncQ
  rw [h]
  have h1 : ((1 : ℕ) : ℤ) = 1 := by norm_num
  rw [h1, Int.tdiv_one]
  exact_mod_cast (Rat.den_eq_one_iff q).mp h

/-- Converting the `sheet_to_json` object of an exported row back through
`importFromExcel`'s per-row conversion preserves the visible columns of an
export-clean row. -/
theorem importRow_visCols (c : String) (it : ContainerItem) (h : ExportClean it = true) :
    visColsRow (importRow c (rowAssoc it)) = visCols it := by
  simp only [ExportClean, Bool.and_eq_true, decide_eq_true_eq, List.all_eq_true] at h
  obtain ⟨⟨⟨⟨⟨⟨hrc, hsup⟩, hcli⟩, hst⟩, hden⟩, hjoin⟩, htags⟩ := h
  have hne : it.awaiting ≠ [] := by
    intro hnil
    exact hjoin (by rw [hnil]; rfl)
  have hawa : (jsSplitComma (jsJoinCS it.awaiting)).map jsTrim = it.awaiting :=
    split_trim_join it.awaiting hne
      (fun t htm => (htags t htm).1)
      (fun t htm => (htags t htm).2)
  obtain ⟨s1, hs1⟩ : ∃ s, it.referenceCode = .str s := by
    cases hv : it.referenceCode with
    | str s => exact ⟨s, rfl⟩
    | num q => rw [hv] at hrc; exact absurd hrc (by simp [isStrVal])
  obtain ⟨s2, hs2⟩ : ∃ s, it.supplier = .str s := by
    cases hv : it.supplier with
    | str s => exact ⟨s, rfl⟩
    | num q => rw [hv] at hsup; exact absurd hsup (by simp [isStrVal])
  obtain ⟨s3, hs3⟩ : ∃ s, it.client = .str s := by
    cases hv : it.client with
    | str s => exact ⟨s, rfl⟩
    | num q => rw [hv] at hcli; exact absurd hcli (by simp [isStrVal])
  obtain ⟨s4, hs4, hs4ne⟩ : ∃ s, it.status = .str s ∧ s ≠ "" := by
    cases hv : it.status with
    | str s => rw [hv] at hst; exact ⟨s, rfl, by simpa using hst⟩
    | num q => rw [hv] at hst; simp at hst
  simp only [visColsRow, visCols, importRow, VisCols.mk.injEq]
  refine ⟨?_, ?_, ?_, ?_, ?_, ?_, ?_, ?_, ?_, ?_⟩
  · rw [show jsGet (rowAssoc it) "Reference Code" = some it.referenceCode from rfl,
      show jsGet (rowAssoc it) "Ref" = none from rfl, hs1]
    by_cases hz : s1 = "" <;> simp [jsOrU, jsTruthyU, JsVal.truthy, hz]
  · rw [show jsGet (rowAssoc it) "Supplier" = some it.supplier from rfl, hs2]
    by_cases hz : s2 = "" <;> simp [jsOrU, jsTruthyU, JsVal.truthy, hz]
  · rw [show jsGet (rowAssoc it) "CBM" = some (JsVal.num it.cbm) from rfl]
    rfl
  · rw [show jsGet (rowAssoc it) "Cartons" = some (JsVal.num it.cartons) from rfl]
    show truncQ it.cartons = it.cartons
    exact truncQ_of_den_one _ hden
  · rw [show jsGet (rowAssoc it) "Gross Weight" = some (JsVal.num it.grossWeight) from rfl]
    rfl
  · rw [show jsGet (rowAssoc it) "Product Cost" = some (JsVal.num it.productCost) from rfl]
    rfl
  · rw [show jsGet (rowAssoc it) "Freight Cost" = some (JsVal.num it.freightCost) from rfl]
    rfl
  · rw [show jsGet (rowAssoc it) "Status" = some it.status from rfl, hs4]
    simp [jsOrU, jsTruthyU, JsVal.truthy, hs4ne]
  · rw [show jsGet (rowAssoc it) "Client" = some it.client from rfl, hs3]
    by_cases hz : s3 = "" <;> simp [jsOrU, jsTruthyU, JsVal.truthy, hz]
  · rw [show jsGet (rowAssoc it) "Awaiting" = some (JsVal.str (jsJoinCS it.awaiting)) from rfl]
    simp [JsVal.truthy, asStringCast, hjoin, hawa]

/-- An edit of one field leaves every other field of the row unchanged. -/
theorem applyEdit_frame (it : ContainerItem) (f : EditField) (ev : String)
    (g : Field) (h : g ≠ f.toField) : getF (applyEdit it f ev) g = getF it g := by
  cases f <;> cases g <;> simp_all [applyEdit, getF, EditField.toField]

/-- An edit never changes the row id. -/
theorem applyEdit_id (it : ContainerItem) (f : EditField) (ev : String) :
    (applyEdit it f ev).id = it.id := by
  cases f <;> rfl

/-! ## Claims -/

/-- C1: every mutating table-view operation (add row, edit-cell commit,
status update, delete row, delete attachment) modifies the local row list
only after the remote store call succeeds; if the remote call fails the row
list is left exactly as before and a blocking alert is surfaced — no
optimistic-then-rollback.  For each operation the failure run (`remoteOk =
false`) leaves `containerData` unchanged and emits an alert, and the success
run applies exactly the corresponding transformation. -/
theorem claim1_pessimistic_mutations
    (st : TableState) (c : String) (nid idS idD idA : ℕ) (s : String) (af : AttField)
    (idE : ℕ) (fE : EditField) (itE : ContainerItem)
    (hedit : st.editingCell = some (idE, fE))
    (hfound : st.containerData.find? (fun x => x.id == idE) = some itE) :
    ((addNewRow false false c nid st).1.containerData = st.containerData
      ∧ (addNewRow false false c nid st).2.2.any Notice.isAlert = true
      ∧ (addNewRow false true c nid st).1.containerData
          = st.containerData ++ [serverCreatedItem nid (defaultNewRow c)])
    ∧ ((saveEdit false false st).1.containerData = st.containerData
      ∧ (saveEdit false false st).2.2.any Notice.isAlert = true
      ∧ (saveEdit false true st).1.containerData
          = st.containerData.map
              (fun x => if x.id == idE then applyEdit itE fE st.editValue else x))
    ∧ ((updateStatus false false idS s st).1.containerData = st.containerData
      ∧ (updateStatus false false idS s st).2.2.any Notice.isAlert = true
      ∧ (updateStatus false true idS s st).1.containerData
          = st.containerData.map
              (fun x => if x.id == idS then { x with status := .str s } else x))
    ∧ ((deleteRow false true false idD st).1.containerData = st.containerData
      ∧ (deleteRow false true false idD st).2.2.any Notice.isAlert = true
      ∧ (deleteRow false true true idD st).1.containerData
          = st.containerData.filter (fun x => ¬ x.id == idD))
    ∧ ((deleteAttachment false true false idA af st).1.containerData = st.containerData
      ∧ (deleteAttachment false true false idA af st).2.2.any Notice.isAlert = true
      ∧ (deleteAttachment false true true idA af st).1.containerData
          = st.containerData.map (fun x => if x.id == idA then setAtt x af none else x)) := by
  refine ⟨⟨rfl, rfl, rfl⟩, ⟨?_, ?_, ?_⟩, ⟨rfl, rfl, rfl⟩, ⟨rfl, rfl, rfl⟩, ⟨rfl, rfl, rfl⟩⟩
  · simp [saveEdit, hedit, hfound]
  · simp [saveEdit, hedit, hfound, Notice.isAlert]
  · simp [saveEdit, hedit, hfound]

/-- Witness for C1 at a concrete one-row state. -/
theorem claim1_pessimistic_mutations_witness :
    sampleState.editingCell = some (1, EditField.cbm)
    ∧ sampleState.containerData.find? (fun x => x.id == 1) = some sampleItem
    ∧ (addNewRow false false "C1" 5 sampleState).1.containerData = sampleState.containerData
    ∧ (saveEdit false false sampleState).1.containerData = sampleState.containerData
    ∧ (deleteRow false true true 1 sampleState).1.containerData = [] :=
  ⟨rfl, rfl,
    (claim1_pessimistic_mutations sampleState "C1" 5 2 3 4 "Ready to Ship" .payment 1 .cbm
      sampleItem rfl rfl).1.1,
    (claim1_pessimistic_mutations sampleState "C1" 5 2 3 4 "Ready to Ship" .payment 1 .cbm
      sampleItem rfl rfl).2.1.1,
    by decide⟩

/-- C2: with the read-only flag set, every mutating entry point (add row,
edit commit, status change, delete row, delete attachment, attachment
upload, import) short-circuits before the store client: the row list is
returned unchanged, zero store calls are issued, and a notice (alert) is
produced — independent of the remote outcome `ok`. -/
theorem claim2_readonly_short_circuit
    (st : TableState) (c selC : String) (nid id fid : ℕ) (s : String) (af : AttField)
    (file : Option UploadFile) (mode : ImportMode) (sheet : Option Sheet)
    (ok confirmed : Bool) (idE : ℕ) (fE : EditField)
    (hedit : st.editingCell = some (idE, fE)) :
    addNewRow true ok c nid st
        = (st, [], [.alert "Read-only mode: Changes are not allowed on this deployment."])
    ∧ saveEdit true ok st
        = ({ st with editingCell := none, editValue := "" }, [],
            [.alert "Read-only mode: Changes are not allowed on this deployment."])
    ∧ updateStatus true ok id s st
        = (st, [], [.alert "Read-only mode: Changes are not allowed on this deployment."])
    ∧ deleteRow true confirmed ok id st
        = (st, [], [.alert "Read-only mode: Cannot delete items"])
    ∧ deleteAttachment true confirmed ok id af st
        = (st, [], [.alert "Read-only mode: Cannot delete attachments"])
    ∧ handleFileUpload true id af file ok st
        = (st, [], [.alert "Read-only mode: Cannot upload files"])
    ∧ importFromExcel true mode selC sheet fid ok st
        = (st, [], [.alert "Read-only mode: Cannot import data"]) := by
  refine ⟨rfl, ?_, rfl, rfl, rfl, rfl, rfl⟩
  simp [saveEdit, hedit]

/-- Witness for C2 at a concrete one-row state. -/
theorem claim2_readonly_short_circuit_witness :
    sampleState.editingCell = some (1, EditField.cbm)
    ∧ addNewRow true true "C1" 5 sampleState
        = (sampleState, [],
            [.alert "Read-only mode: Changes are not allowed on this deployment."])
    ∧ importFromExcel true .add "C1" none 9 true sampleState
        = (sampleState, [], [.alert "Read-only mode: Cannot import data"]) :=
  ⟨rfl,
    (claim2_readonly_short_circuit sampleState "C1" "S" 5 1 9 "P" .hbl none .add none
      true true 1 .cbm rfl).1,
    (claim2_readonly_short_circuit sampleState "C1" "S" 5 1 9 "P" .hbl none .add none
      true true 1 .cbm rfl).2.2.2.2.2.2⟩

/-- C3: committing a cell edit sends a patch containing exactly the one
edited field, the list keeps its length and id order with the entry replaced
in place, and every other field of the edited row retains its prior value. -/
theorem claim3_edit_patch_frame
    (st : TableState) (idE : ℕ) (fE : EditField) (itE : ContainerItem)
    (hedit : st.editingCell = some (idE, fE))
    (hfound : st.containerData.find? (fun x => x.id == idE) = some itE) :
    (saveEdit false true st).2.1
        = [.updateIt itE.id [(supabaseFieldOf fE, .v (commitValue fE st.editValue))]]
    ∧ (saveEdit false true st).1.containerData
        = st.containerData.map
            (fun x => if x.id == idE then applyEdit itE fE st.editValue else x)
    ∧ (saveEdit false true st).1.containerData.length = st.containerData.length
    ∧ (saveEdit false true st).1.containerData.map (fun x => x.id)
        = st.containerData.map (fun x => x.id)
    ∧ (∀ g : Field, g ≠ fE.toField →
        getF (applyEdit itE fE st.editValue) g = getF itE g) := by
  have hq : (saveEdit false true st).1.containerData
      = st.containerData.map
          (fun x => if x.id == idE then applyEdit itE fE st.editValue else x) := by
    simp [saveEdit, hedit, hfound]
  have hidE : itE.id = idE := by
    have := List.find?_some hfound
    simpa using this
  refine ⟨?_, hq, ?_, ?_, fun g hg => applyEdit_frame itE fE st.editValue g hg⟩
  · simp [saveEdit, hedit, hfound]
  · rw [hq]; simp
  · rw [hq, List.map_map]
    apply List.map_congr_left
    intro x _
    show (if x.id == idE then applyEdit itE fE st.editValue else x).id = x.id
    by_cases hx : x.id == idE
    · have hxe : x.id = idE := by simpa using hx
      rw [if_pos hx, applyEdit_id, hidE, hxe]
    · rw [if_neg hx]

/-- Witness for C3 at a concrete one-row state. -/
theorem claim3_edit_patch_frame_witness :
    sampleState.editingCell = some (1, EditField.cbm)
    ∧ sampleState.containerData.find? (fun x => x.id == 1) = some sampleItem
    ∧ (saveEdit false true sampleState).2.1
        = [.updateIt sampleItem.id
            [(supabaseFieldOf .cbm, .v (commitValue .cbm sampleState.editValue))]]
    ∧ getF (applyEdit sampleItem .cbm sampleState.editValue) .supplier
        = getF sampleItem .supplier :=
  ⟨rfl, rfl,
    (claim3_edit_patch_frame sampleState 1 .cbm sampleItem rfl rfl).1,
    (claim3_edit_patch_frame sampleState 1 .cbm sampleItem rfl rfl).2.2.2.2 .supplier
      (by decide)⟩

/-- C4 evidence (code bug): the change handlers of the awaiting tag, the
production-ready date and the client select issue no store call and produce
no notification, yet they do rewrite the local row — contradicting the
documented patch-update pattern that `updateStatus` follows. -/
theorem claim4_local_only_field_handlers :
    (∀ (id : ℕ) (v : String) (st : TableState),
      (awaitingOnChange id v st).2.1 = [] ∧ (awaitingOnChange id v st).2.2 = []
        ∧ (productionReadyOnChange id v st).2.1 = []
        ∧ (productionReadyOnChange id v st).2.2 = []
        ∧ (clientOnChange id v st).2.1 = [] ∧ (clientOnChange id v st).2.2 = [])
    ∧ (awaitingOnChange 1 "Payment" ⟨[sampleItem], none, ""⟩).1.containerData ≠ [sampleItem]
    ∧ (awaitingOnChange 1 "Payment" ⟨[sampleItem], none, ""⟩).1.containerData
        = [{ sampleItem with awaiting := ["Payment"] }] :=
  ⟨fun _ _ _ => ⟨rfl, rfl, rfl, rfl, rfl, rfl⟩, by decide, by decide⟩

/-- C5 counterexample: exporting a one-row table and importing the produced
workbook into a fresh container in replace mode yields four rows, not one —
the three summary-block label lines are parsed back as data rows. -/
theorem claim5_roundtrip_counterexample :
    ((importFromExcel false .replace "Fresh" (some (exportSheet [sampleItem])) 10 true
        ⟨[], none, ""⟩).1.containerData).length = 4
    ∧ ((importFromExcel false .replace "Fresh" (some (exportSheet [sampleItem])) 10 true
        ⟨[], none, ""⟩).1.containerData).map (fun it => it.referenceCode)
        = [.str "A-1", .str "Total CBM:", .str "Total Cost:", .str "CBM Ready to Ship:"]
    ∧ ((importFromExcel false .replace "Fresh" (some (exportSheet [sampleItem])) 10 true
        ⟨[], none, ""⟩).1.containerData).map visCols ≠ [sampleItem].map visCols :=
  ⟨by decide, by decide, by decide⟩

/-- C5 amended: the export/import round trip into a fresh container in
replace mode reproduces the original rows' visible columns in order, followed
by three extra rows parsed from the summary block (their reference codes are
the summary labels and all other columns take import defaults) — for rows
whose text columns are strings, status is non-empty, cartons is integral, and
awaiting tags are trimmed, comma-free, and join to a non-empty string. -/
theorem claim5_roundtrip_amended (data : List ContainerItem)
    (freshName : String) (firstId : ℕ)
    (hne : data ≠ []) (hclean : ∀ it ∈ data, ExportClean it = true) :
    ((importFromExcel false .replace freshName (some (exportSheet data)) firstId true
        ⟨[], none, ""⟩).1.containerData).map visCols
      = data.map visCols ++
        [summaryVis "Total CBM:", summaryVis "Total Cost:",
         summaryVis "CBM Ready to Ship:"] := by
  have hres : (importFromExcel false .replace freshName (some (exportSheet data)) firstId true
      ⟨[], none, ""⟩).1.containerData
      = createAll firstId ((sheetToJson (exportSheet data)).map (importRow freshName)) := rfl
  rw [hres, createAll_map_visCols, sheetToJson_exportSheet data hne]
  simp only [List.map_append, List.map_map]
  congr 1
  apply List.map_congr_left
  intro it hit
  exact importRow_visCols freshName it (hclean it hit)

/-- Witness for the amended C5 at a concrete one-row table. -/
theorem claim5_roundtrip_amended_witness :
    ([sampleItem] ≠ [])
    ∧ (∀ it ∈ [sampleItem], ExportClean it = true)
    ∧ ((importFromExcel false .replace "Fresh2" (some (exportSheet [sampleItem])) 10 true
        ⟨[], none, ""⟩).1.containerData).map visCols
        = [sampleItem].map visCols ++
          [summaryVis "Total CBM:", summaryVis "Total Cost:",
           summaryVis "CBM Ready to Ship:"] :=
  ⟨by decide, by decide,
    claim5_roundtrip_amended [sampleItem] "Fresh2" 10 (by decide) (by decide)⟩

/-- C6: committing an edit on one of the five numeric fields stores the
`parseFloat` of the text with parse failure defaulting to `0`: the committed
value and the patch sent are that number, a parse failure yields exactly
`.num 0`, the stored value is never the literal string, and the save
completes with the save notification and no error. -/
theorem claim6_numeric_coercion
    (st : TableState) (idE : ℕ) (fE : EditField) (itE : ContainerItem)
    (hedit : st.editingCell = some (idE, fE))
    (hfound : st.containerData.find? (fun x => x.id == idE) = some itE)
    (hnum : isNumericEditField fE = true) :
    commitValue fE st.editValue = .num (orZero (jsParseFloat st.editValue))
    ∧ (saveEdit false true st).2.1
        = [.updateIt itE.id
            [(supabaseFieldOf fE, .v (.num (orZero (jsParseFloat st.editValue))))]]
    ∧ (jsParseFloat st.editValue = none → commitValue fE st.editValue = .num 0)
    ∧ (∀ s, commitValue fE st.editValue ≠ .str s)
    ∧ getF (applyEdit itE fE st.editValue) fE.toField
        = .prim (.num (orZero (jsParseFloat st.editValue)))
    ∧ (saveEdit false true st).2.2 = [.saved]
    ∧ jsParseFloat "abc" = none := by
  have hcommit : commitValue fE st.editValue = .num (orZero (jsParseFloat st.editValue)) := by
    simp [commitValue, hnum]
  refine ⟨hcommit, ?_, ?_, ?_, ?_, ?_, by decide⟩
  · rw [show (saveEdit false true st).2.1
      = [.updateIt itE.id [(supabaseFieldOf fE, .v (commitValue fE st.editValue))]] from by
        simp [saveEdit, hedit, hfound], hcommit]
  · intro hn; rw [hcommit, hn]; rfl
  · intro s; rw [hcommit]; simp
  · cases fE <;> simp_all [applyEdit, getF, EditField.toField, isNumericEditField]
  · simp [saveEdit, hedit, hfound]

/-- Witness for C6: committing the text `"abc"` into the cbm cell stores 0. -/
theorem claim6_numeric_coercion_witness :
    sampleState.editingCell = some (1, EditField.cbm)
    ∧ sampleState.containerData.find? (fun x => x.id == 1) = some sampleItem
    ∧ isNumericEditField .cbm = true
    ∧ jsParseFloat "abc" = none
    ∧ commitValue .cbm sampleState.editValue = .num 0 :=
  ⟨rfl, rfl, rfl, by decide,
    (claim6_numeric_coercion sampleState 1 .cbm sampleItem rfl rfl rfl).2.2.1 (by decide)⟩

/-- C7: without any attachment the export is the plain workbook named
`<container> CBM & PI.xlsx`; with at least one attachment it is a zip named
`<container> CBM & PI.zip` holding the workbook plus one folder per
reference-code-bearing row, folder names sanitized to alphanumeric-or-
underscore characters, each folder holding only files obtained from that
row's attachments, and a rejected fetch skips only that attachment while
every successfully fetched attachment is kept. -/
theorem claim7_export_artifact (env : FetchEnv) (c : String) (data : List ContainerItem) :
    (hasAttachments data = false →
      exportToExcel env c data = .plain (c ++ " CBM & PI.xlsx") (exportSheet data))
    ∧ (hasAttachments data = true →
      exportToExcel env c data
        = .zipped (c ++ " CBM & PI.zip") (c ++ " CBM & PI.xlsx") (exportSheet data)
            ((data.filter (fun it => it.referenceCode.truthy)).map (fun it =>
              { name := sanitizeFolderName (refCodeString it.referenceCode)
                files := folderFiles env it })))
    ∧ (∀ it : ContainerItem, ∀ ch ∈ (sanitizeFolderName (refCodeString it.referenceCode)).data,
        ch.isAlphanum = true ∨ ch = '_')
    ∧ (∀ (it : ContainerItem) (file : String × List ℕ), file ∈ folderFiles env it →
        ∃ spec ∈ attachmentSpecs, ∃ fd, getAtt it spec.1 = some fd
          ∧ fetchAttachment env spec.2 fd = some file)
    ∧ (∀ (it : ContainerItem) (spec : AttField × String) (fd : FileData)
        (file : String × List ℕ), spec ∈ attachmentSpecs → getAtt it spec.1 = some fd →
        attTruthy (some fd) = true → fetchAttachment env spec.2 fd = some file →
        file ∈ folderFiles env it) := by
  refine ⟨?_, ?_, ?_, ?_, ?_⟩
  · intro h
    simp [exportToExcel, h]
  · intro h
    simp [exportToExcel, h]
  · intro it ch hch
    simp only [sanitizeFolderName] at hch
    obtain ⟨c0, _, rfl⟩ := List.mem_map.mp hch
    by_cases hA : c0.isAlphanum
    · left; simpa [hA] using hA
    · right; simp [hA]
  · intro it file hf
    obtain ⟨spec, hspec, heq⟩ := List.mem_filterMap.mp hf
    cases hga : getAtt it spec.1 with
    | none => rw [hga] at heq; exact Option.noConfusion heq
    | some fd =>
      rw [hga] at heq
      have heq2 : (if attTruthy (some fd) = true then fetchAttachment env spec.2 fd
          else none) = some file := heq
      by_cases htr : attTruthy (some fd) = true
      · rw [if_pos htr] at heq2
        exact ⟨spec, hspec, fd, hga, heq2⟩
      · rw [if_neg htr] at heq2
        exact Option.noConfusion heq2
  · intro it spec fd file hspec hga htr hfetch
    exact List.mem_filterMap.mpr ⟨spec, hspec, by rw [hga]; simp [htr, hfetch]⟩

/-- Witness for C7: one row with one fetchable and two failing attachments
produces the zip with a single sanitized folder holding one file. -/
theorem claim7_export_artifact_witness :
    hasAttachments [attachedItem] = true
    ∧ exportToExcel sampleEnv "I1" [attachedItem]
        = .zipped ("I1" ++ " CBM & PI.zip") ("I1" ++ " CBM & PI.xlsx")
            (exportSheet [attachedItem])
            (([attachedItem].filter (fun it => it.referenceCode.truthy)).map (fun it =>
              { name := sanitizeFolderName (refCodeString it.referenceCode)
                files := folderFiles sampleEnv it }))
    ∧ folderFiles sampleEnv attachedItem = [("Packing_List.pdf", [1, 2, 3])]
    ∧ sanitizeFolderName (refCodeString attachedItem.referenceCode) = "B_2" :=
  ⟨by decide,
    (claim7_export_artifact sampleEnv "I1" [attachedItem]).2.1 (by decide),
    by decide, by decide⟩

/-- C8 counterexample: an unrecognized non-empty Status value survives the
per-row conversion unchanged instead of being defaulted to Pending. -/
theorem claim8_unrecognized_status_counterexample :
    (importRow "X" [("Status", JsVal.str "Bogus")]).status = .str "Bogus"
    ∧ JsVal.str "Bogus" ≠ JsVal.str "Pending"
    ∧ "Bogus" ∉ ["Ready to Ship", "Awaiting Supplier", "Need Payment", "Pending"] :=
  ⟨rfl, by decide, by decide⟩

/-- C8 amended: each parsed workbook row is converted with the
numeric-coercion-defaults-to-zero policy of edits (`parseFloat` for
cbm/gross weight/product cost/freight cost, `parseInt` for cartons and
production days, failure giving 0), the awaiting column is split on commas
into a trimmed tag list defaulting to the single sentinel tag when absent or
empty, and status defaults to Pending only when the column is absent or
empty — a non-empty unrecognized value is stored unchanged. -/
theorem claim8_import_conversion_amended
    (c : String) (row : List (String × JsVal)) (s : String) :
    (jsGet row "CBM" = some (.str s) → jsParseFloat s = none →
      (importRow c row).cbm = 0 ∧ commitValue .cbm s = .num 0)
    ∧ (jsGet row "Gross Weight" = some (.str s) → jsParseFloat s = none →
      (importRow c row).gross_weight = 0)
    ∧ (jsGet row "Product Cost" = some (.str s) → jsParseFloat s = none →
      (importRow c row).product_cost = 0)
    ∧ (jsGet row "Freight Cost" = some (.str s) → jsParseFloat s = none →
      (importRow c row).freight_cost = 0)
    ∧ (jsGet row "Cartons" = some (.str s) → jsParseInt s = none →
      (importRow c row).cartons = 0)
    ∧ (jsGet row "Production Days" = some (.str s) → jsParseInt s = none →
      (importRow c row).production_days = 0)
    ∧ (jsGet row "CBM" = none → (importRow c row).cbm = 0)
    ∧ (jsGet row "Awaiting" = none → (importRow c row).awaiting = ["-"])
    ∧ (jsGet row "Awaiting" = some (.str "") → (importRow c row).awaiting = ["-"])
    ∧ (∀ a : String, a ≠ "" → jsGet row "Awaiting" = some (.str a) →
      (importRow c row).awaiting = (jsSplitComma a).map jsTrim)
    ∧ (jsGet row "Status" = none → (importRow c row).status = .str "Pending")
    ∧ (jsGet row "Status" = some (.str "") → (importRow c row).status = .str "Pending")
    ∧ (∀ b : String, b ≠ "" → jsGet row "Status" = some (.str b) →
      (importRow c row).status = .str b) := by
  refine ⟨?_, ?_, ?_, ?_, ?_, ?_, ?_, ?_, ?_, ?_, ?_, ?_, ?_⟩
  · intro h1 h2
    constructor
    · simp [importRow, h1, parseFloatU, h2, orZero]
    · simp [commitValue, isNumericEditField, h2, orZero]
  · intro h1 h2
    simp [importRow, h1, parseFloatU, h2, orZero]
  · intro h1 h2
    simp [importRow, h1, parseFloatU, h2, orZero]
  · intro h1 h2
    simp [importRow, h1, parseFloatU, h2, orZero]
  · intro h1 h2
    simp [importRow, h1, parseIntU, h2, orZero]
  · intro h1 h2
    simp [importRow, h1, parseIntU, h2, orZero]
  · intro h1
    simp [importRow, h1, parseFloatU, orZero]
  · intro h1
    simp [importRow, h1]
  · intro h1
    simp [importRow, h1, JsVal.truthy]
  · intro a ha h1
    simp [importRow, h1, JsVal.truthy, ha, asStringCast]
  · intro h1
    simp [importRow, h1, jsOrU, jsTruthyU]
  · intro h1
    simp [importRow, h1, jsOrU, jsTruthyU, JsVal.truthy]
  · intro b hb h1
    simp [importRow, h1, jsOrU, jsTruthyU, JsVal.truthy, hb]

/-- Witness for the amended C8 at a concrete parsed row. -/
theorem claim8_import_conversion_amended_witness :
    jsGet [("CBM", JsVal.str "abc"), ("Awaiting", JsVal.str "Payment, Customs")] "CBM"
        = some (.str "abc")
    ∧ jsParseFloat "abc" = none
    ∧ (importRow "X" [("CBM", JsVal.str "abc"), ("Awaiting", JsVal.str "Payment, Customs")]).cbm
        = 0
    ∧ (importRow "X"
        [("CBM", JsVal.str "abc"), ("Awaiting", JsVal.str "Payment, Customs")]).awaiting
        = (jsSplitComma "Payment, Customs").map jsTrim
    ∧ (jsSplitComma "Payment, Customs").map jsTrim = ["Payment", "Customs"]
    ∧ (importRow "X"
        [("CBM", JsVal.str "abc"), ("Awaiting", JsVal.str "Payment, Customs")]).status
        = .str "Pending" :=
  ⟨rfl, by decide,
    ((claim8_import_conversion_amended "X"
        [("CBM", JsVal.str "abc"), ("Awaiting", JsVal.str "Payment, Customs")] "abc").1
      rfl (by decide)).1,
    (claim8_import_conversion_amended "X"
        [("CBM", JsVal.str "abc"), ("Awaiting", JsVal.str "Payment, Customs")]
        "abc").2.2.2.2.2.2.2.2.2.1 "Payment, Customs" (by decide) rfl,
    by decide,
    (claim8_import_conversion_amended "X"
        [("CBM", JsVal.str "abc"), ("Awaiting", JsVal.str "Payment, Customs")]
        "abc").2.2.2.2.2.2.2.2.2.2.1 rfl⟩

/-- C9: the summary block sits three rows below the data and consists of
live formulas with no precomputed value: a SUM of the CBM column, the sum of
two SUMs over the product-cost and freight-cost columns, and a SUMIF over
the status column against the literal string, summing the CBM column; the
column letters C/F/G/K are exactly the CBM, Product Cost, Freight Cost and
Status columns, and the referenced rows 2..(n+1) are exactly the data rows. -/
theorem claim9_summary_formulas (data : List ContainerItem) (h : data ≠ []) :
    (exportSheet data)[data.length + 3]?
        = some [scell "Total CBM:",
            fcell ("SUM(C2:C" ++ toString (data.length + 1) ++ ")")]
    ∧ (exportSheet data)[data.length + 4]?
        = some [scell "Total Cost:",
            fcell ("SUM(F2:F" ++ toString (data.length + 1) ++ ") + SUM(G2:G" ++
              toString (data.length + 1) ++ ")")]
    ∧ (exportSheet data)[data.length + 5]?
        = some [scell "CBM Ready to Ship:",
            fcell ("SUMIF(K2:K" ++ toString (data.length + 1) ++ ",\"Ready to Ship\",C2:C" ++
              toString (data.length + 1) ++ ")")]
    ∧ (∀ i it, data[i]? = some it →
        (exportSheet data)[i + 1]? = some ((exportRowCells it).map vcell))
    ∧ exportHeaders[2]? = some "CBM" ∧ exportHeaders[5]? = some "Product Cost"
    ∧ exportHeaders[6]? = some "Freight Cost" ∧ exportHeaders[10]? = some "Status"
    ∧ encodeCol 2 = "C" ∧ encodeCol 5 = "F" ∧ encodeCol 6 = "G" ∧ encodeCol 10 = "K" := by
  have hform1 : sumFormula 2 data.length = "SUM(C2:C" ++ toString (data.length + 1) ++ ")" := rfl
  have hform2 : costFormula data.length
      = "SUM(F2:F" ++ toString (data.length + 1) ++ ") + SUM(G2:G" ++
        toString (data.length + 1) ++ ")" := by
    apply String.ext
    have e6 : encodeColCore 6 6 = ['F'] := rfl
    have e7 : encodeColCore 7 7 = ['G'] := rfl
    simp only [costFormula, sumFormula, encodeCol, String.data_append, e6, e7]
    simp
  have hform3 : readyFormula data.length
      = "SUMIF(K2:K" ++ toString (data.length + 1) ++ ",\"Ready to Ship\",C2:C" ++
        toString (data.length + 1) ++ ")" := by
    apply String.ext
    have e11 : encodeColCore 11 11 = ['K'] := rfl
    have e3 : encodeColCore 3 3 = ['C'] := rfl
    simp only [readyFormula, encodeCol, String.data_append, e11, e3]
    simp
  have key : exportSheet data
      = ((if data = [] then [] else exportHeaders.map scell) ::
          data.map (fun it => (exportRowCells it).map vcell) ++ [[], []]) ++
        [[scell "Total CBM:", fcell (sumFormula 2 data.length)],
         [scell "Total Cost:", fcell (costFormula data.length)],
         [scell "CBM Ready to Ship:", fcell (readyFormula data.length)]] := rfl
  have hL1 : ((if data = [] then [] else exportHeaders.map scell) ::
      data.map (fun it => (exportRowCells it).map vcell) ++ [[], []]).length
      = data.length + 3 := by simp
  refine ⟨?_, ?_, ?_, ?_, rfl, rfl, rfl, rfl, rfl, rfl, rfl, rfl⟩
  · rw [key, List.getElem?_append_right (by rw [hL1]), hL1]
    simp [hform1]
  · rw [key, List.getElem?_append_right (by rw [hL1]; omega), hL1]
    have h4 : data.length + 4 - (data.length + 3) = 1 := by omega
    rw [h4]
    simp [hform2]
  · rw [key, List.getElem?_append_right (by rw [hL1]; omega), hL1]
    have h5 : data.length + 5 - (data.length + 3) = 2 := by omega
    rw [h5]
    simp [hform3]
  · intro i it hit
    have hi : i < data.length := by
      by_contra hge
      rw [List.getElem?_eq_none (by omega)] at hit
      exact Option.noConfusion hit
    rw [key, List.getElem?_append_left (by rw [hL1]; omega),
      List.getElem?_append_left (by simp; omega),
      List.getElem?_cons_succ, List.getElem?_map, hit]
    rfl

/-- Witness for C9 at a concrete one-row table. -/
theorem claim9_summary_formulas_witness :
    ([sampleItem] : List ContainerItem) ≠ []
    ∧ (exportSheet [sampleItem])[[sampleItem].length + 3]?
        = some [scell "Total CBM:",
            fcell ("SUM(C2:C" ++ toString ([sampleItem].length + 1) ++ ")")]
    ∧ (exportSheet [sampleItem])[4]? = some [scell "Total CBM:", fcell "SUM(C2:C2)"] :=
  ⟨by decide, (claim9_summary_formulas [sampleItem] (by decide)).1, by decide⟩

/-- C10: the export handler never changes the view state, issues no store
call, and does not consult the read-only flag: its result is identical for
every value of the flag, its only outputs being the download artifact built
from reads and attachment fetches. -/
theorem claim10_export_pure (ro : Bool) (env : FetchEnv) (c : String) (st : TableState) :
    (exportHandler ro env c st).1 = st
    ∧ (exportHandler ro env c st).2.1 = []
    ∧ exportHandler ro env c st = exportHandler true env c st
    ∧ exportHandler ro env c st = exportHandler false env c st :=
  ⟨rfl, rfl, rfl, rfl⟩

end Containers
